import Mathlib

/-!
Verification development for the errcat-go call-resilience library.

The Go source is shallowly embedded: errors are `Option Err` (with `none`
playing the role of Go's nil error), a user operation's behaviour is an
`Outcome` (either a returned error or a Go panic carrying a string value),
time is an `Int` (nanoseconds, matching Go's `time.Duration`/`time.Time`
arithmetic through an injected clock), and the breaker's lock-protected
mutable fields are threaded explicitly as a `BreakerState` value.  Each
definition mirrors one function of the source package.
-/

namespace Errcat

/-- Error values.  `user msg` stands for an ordinary Go error whose
`Error()` string is `msg` (including errors fabricated from recovered
panics via `fmt.Errorf`), while `breakerOpen` and `timeout` are the two
library sentinels `ErrBreakerOpen` and `ErrTimeout`, which Go compares by
identity. -/
inductive Err where
  | user (msg : String)
  | breakerOpen
  | timeout
deriving DecidableEq

/-- The `Error()` string of an error value.  The sentinel messages are the
literals from `breaker.go` and `timer.go`. -/
def Err.message : Err → String
  | .user m => m
  | .breakerOpen => "circuit breaker is open"
  | .timeout => "timeout exceeded"

/-- Result of invoking a Go function that may panic: either it returns an
error value (possibly nil), or it panics with a value whose string form is
`v`. -/
inductive Outcome where
  | ret (e : Option Err)
  | thrown (v : String)
deriving DecidableEq

/-- Effect of a `defer`red `recover()` barrier wrapped around an
invocation, as in `Breaker.safeRun` and `Daemon.Call`: a panic value `v`
becomes the error `fmt.Errorf("%v", r)`, i.e. a user error with message
`v`; a returned error passes through. -/
def Outcome.toErr : Outcome → Option Err
  | .ret e => e
  | .thrown v => some (.user v)

/-! ## Retrier (retrier/retrier.go) -/

/-- Configuration of `retrier.Retrier`. -/
structure Retrier where
  isRetriable : Option Err → Bool
  maxAttempts : Nat

/-- The retrier produced by `retrier.New()` with no options:
`maxAttempts = 1` and `isRetriable err = (err != nil)`. -/
def Retrier.defaultR : Retrier :=
  { isRetriable := fun e => e.isSome, maxAttempts := 1 }

/-- The loop body of `Retrier.Run`: `i` is the number of invocations made
so far, the second argument the remaining iteration budget, `last` the
error of the previous iteration (returned when the budget is exhausted).
`f k` is the outcome of the `k`-th invocation of `cb` (0-indexed).  A
panic inside `cb` aborts the loop and propagates, since `Retrier.Run`
installs no recovery barrier. -/
def Retrier.runAux (p : Option Err → Bool) (f : Nat → Outcome) :
    Nat → Nat → Option Err → Nat × Outcome
  | i, 0, last => (i, .ret last)
  | i, rem + 1, _ =>
    match f i with
    | .thrown v => (i + 1, .thrown v)
    | .ret err =>
      if err = none ∨ p err = false then (i + 1, .ret err)
      else Retrier.runAux p f (i + 1) rem err

/-- Behaviour of `Retrier.Run` on a possibly-nil receiver.  A nil retrier runs `cb`
exactly once and returns its result (the Go method has a nil-receiver
guard `if r == nil { return cb() }`). -/
def Retrier.runO : Option Retrier → (Nat → Outcome) → Nat × Outcome
  | none, f => (1, f 0)
  | some r, f => Retrier.runAux r.isRetriable f 0 r.maxAttempts none

/-! ## Fallback (fallback/fallback.go) -/

/-- Configuration of `fallback.Fallback`.  The stored zero-argument
operation is represented by the outcome `call` of invoking it (it may
itself panic, which `Fallback.Call` does not catch). -/
structure Fallback where
  useFallback : Option Err → Bool
  call : Outcome

/-- Behaviour of `Fallback.UseFallback` on a possibly-nil receiver:
`f != nil && f.useFallback(err)`. -/
def Fallback.useFallbackO : Option Fallback → Option Err → Bool
  | none, _ => false
  | some f, e => f.useFallback e

/-- Behaviour of `Fallback.Call` on a possibly-nil receiver: nil returns nil, otherwise
the stored operation is invoked (panics propagate). -/
def Fallback.callO : Option Fallback → Outcome
  | none => .ret none
  | some f => f.call

/-! ## Timer (timer/timer.go) -/

/-- Configuration of `timer.Timer`: a duration in nanoseconds. -/
structure Timer where
  duration : Int

/-! ## Breaker (breaker/breaker.go) -/

/-- Breaker status, `Closed = 0`, `HalfOpen = 1`, `Open = 2` in the
source. -/
inductive Status where
  | Closed
  | HalfOpen
  | Open
deriving DecidableEq

/-- Mirror of `breaker.State`: the stored status, expiry instant (meaningful only
when the stored status is `Open`), and the two consecutive counters.  The
source's injected `now` clock function is passed explicitly to the
operations that read it. -/
structure State where
  status : Status
  expiresAt : Int
  failures : Nat
  successes : Nat
deriving DecidableEq

/-- Mirror of `State.Status()`: the observed status.  The source condition is
`s.status == Open && !s.expiresAt.After(s.now())`; `!After` is `≤`. -/
def State.observedStatus (s : State) (now : Int) : Status :=
  if s.status = .Open ∧ s.expiresAt ≤ now then .HalfOpen else s.status

/-- Configuration of `breaker.Breaker` (immutable after `New`). -/
structure Breaker where
  isFailure : Option Err → Bool
  maxFailures : Nat
  maxRequests : Nat
  timeout : Int

/-- The breaker produced by `breaker.New()` with no options:
`maxFailures = 5`, `maxRequests = 1`, `timeout = 60s` (in nanoseconds),
`isFailure err = (err != nil)`. -/
def Breaker.defaultB : Breaker :=
  { isFailure := fun e => e.isSome, maxFailures := 5, maxRequests := 1,
    timeout := 60000000000 }

/-- The lock-protected mutable fields of a `Breaker`: the in-flight
half-open request counter `requests` and the `state` record. -/
structure BreakerState where
  requests : Nat
  state : State
deriving DecidableEq

/-- The state a fresh breaker starts in (`New` assigns the zero `State`). -/
def Breaker.initialState : BreakerState :=
  { requests := 0,
    state := { status := .Closed, expiresAt := 0, failures := 0, successes := 0 } }

/-- Mirror of `Breaker.canMakeHalfOpenRequest`: under the write lock, admit and
increment the in-flight counter only if it is strictly below
`maxRequests`. -/
def Breaker.canMakeHalfOpenRequest (b : Breaker) (bs : BreakerState) :
    Bool × BreakerState :=
  if b.maxRequests ≤ bs.requests then (false, bs)
  else (true, { bs with requests := bs.requests + 1 })

/-- Mirror of `Breaker.setState`: reset the request counter and install a fresh
zero-counter state; entering `Open` stamps `expiresAt = now + timeout`
(other statuses leave the zero instant). -/
def Breaker.setState (b : Breaker) (status : Status) (now : Int) : BreakerState :=
  { requests := 0,
    state := { status := status,
               expiresAt := if status = .Open then now + b.timeout else 0,
               failures := 0, successes := 0 } }

/-- Mirror of `Breaker.handleError`: outcome accounting.  `snap` is the state
snapshot taken before the operation ran (used by the lock-free early
exit), `bs` the current lock-protected state, `err` the (panic-converted)
error of the operation.  `isF` mirrors `err != nil && b.isFailure(err)`. -/
def Breaker.handleError (b : Breaker) (bs : BreakerState) (snap : State)
    (err : Option Err) (now : Int) : BreakerState :=
  if snap.status = .Closed ∧ (err.isSome && b.isFailure err) = false ∧ snap.failures = 0 then
    bs
  else
    match bs.state.observedStatus now with
    | .Closed =>
      if (err.isSome && b.isFailure err) = true then
        if b.maxFailures ≤ bs.state.failures + 1 then b.setState .Open now
        else { bs with state :=
               { bs.state with failures := bs.state.failures + 1, successes := 0 } }
      else { bs with state := { bs.state with failures := 0 } }
    | .HalfOpen =>
      if (err.isSome && b.isFailure err) = true then b.setState .Open now
      else
        if bs.state.successes + 1 = b.maxRequests then b.setState .Closed now
        else { bs with state :=
               { bs.state with successes := bs.state.successes + 1, failures := 0 } }
    | .Open => bs

/-- Mirror of `Breaker.Run` on a non-nil breaker, single call.  `inner` is the
result of running the wrapped operation: its invocation count (how many
times the user `cb` ran inside it) and its outcome.  When the call is
rejected the operation is never started, so the count is 0 and no state
changes; when admitted, `safeRun` converts a panic into an error before
`handleError` accounts for it, and the converted error is returned. -/
def Breaker.runO (b : Breaker) (bs : BreakerState) (now : Int)
    (inner : Nat × Outcome) : BreakerState × Nat × Outcome :=
  match bs.state.observedStatus now with
  | .Open => (bs, 0, .ret (some .breakerOpen))
  | .HalfOpen =>
    let cm := b.canMakeHalfOpenRequest bs
    if cm.1 then
      let err := Outcome.toErr inner.2
      (b.handleError cm.2 bs.state err now, inner.1, .ret err)
    else (bs, 0, .ret (some .breakerOpen))
  | .Closed =>
    let err := Outcome.toErr inner.2
    (b.handleError bs bs.state err now, inner.1, .ret err)

/-- Iterate `Breaker.Run` over a list of operation results (each a single
plain invocation returning the given error), under a constant clock;
returns the final breaker state and the error returned by the last call. -/
def Breaker.runSeq (b : Breaker) (now : Int) :
    BreakerState → List (Option Err) → BreakerState × Option Err
  | bs, [] => (bs, none)
  | bs, e :: es =>
    let r := b.runO bs now (1, .ret e)
    match es with
    | [] => (r.1, Outcome.toErr r.2.2)
    | _ :: _ => Breaker.runSeq b now r.1 es

/-- Behaviour of `Timer.Run` on a possibly-nil timer.  A nil timer or a non-positive
duration runs the wrapped computation synchronously with no recovery
barrier, so its outcome — including a panic — passes through unchanged.
Otherwise the computation runs on a goroutine under a recover barrier and
the select race is decided by `fires`: if the deadline fires first the
sentinel `TIMEOUT` is returned while the background computation's state
effects and invocations still happen; otherwise the (panic-converted)
outcome is returned. -/
def Timer.runO (t : Option Timer) (fires : Bool)
    (r : BreakerState × Nat × Outcome) : BreakerState × Nat × Outcome :=
  match t with
  | none => r
  | some tm =>
    if tm.duration ≤ 0 then r
    else
      (r.1, r.2.1,
        if fires then Outcome.ret (some .timeout)
        else
          match r.2.2 with
          | .thrown v => .ret (some (.user v))
          | .ret e => .ret e)

/-! ## Caller (errcat.go) -/

/-- Mirror of `errcat.Caller`: an immutable invocation site with optional
primitives. -/
structure Caller where
  dependency : String
  name : String
  key : String
  breaker : Option Breaker
  retrier : Option Retrier
  timer : Option Timer
  fallback : Option Fallback

/-- Mirror of `errcat.New(dependency, name)`: key is `dependency ":" name`, all
primitives absent. -/
def Caller.new (dependency name : String) : Caller :=
  { dependency := dependency, name := name,
    key := dependency ++ ":" ++ name,
    breaker := none, retrier := none, timer := none, fallback := none }

/-- Mirror of `Caller.WithBreaker` (value-receiver derivation). -/
def Caller.withBreaker (c : Caller) (b : Option Breaker) : Caller :=
  { c with breaker := b }

/-- Mirror of `Caller.WithFallback`. -/
def Caller.withFallback (c : Caller) (f : Option Fallback) : Caller :=
  { c with fallback := f }

/-- Mirror of `Caller.WithRetrier`. -/
def Caller.withRetrier (c : Caller) (r : Option Retrier) : Caller :=
  { c with retrier := r }

/-- Mirror of `Caller.WithTimeout`: always installs a timer with the supplied
duration (non-positive durations are disabled inside `Timer.Run`). -/
def Caller.withTimeout (c : Caller) (d : Int) : Caller :=
  { c with timer := some { duration := d } }

/-- The Go zero value `Caller{}`, produced by a map lookup miss in the
daemon's registry. -/
def Caller.zeroC : Caller :=
  { dependency := "", name := "", key := "",
    breaker := none, retrier := none, timer := none, fallback := none }

/-- Mirror of `Caller.Call`: the source body is
`err := c.timer.Run(func() { return c.breaker.Run(func() { return
c.retrier.Run(cb) }) })`, then
`if c.fallback.UseFallback(err) { return c.fallback.Call() }; return err`.
A panic escaping the composed stages (possible when no barrier is in the
path) propagates out of `Call` before the fallback is consulted. -/
def Caller.call (c : Caller) (fires : Bool) (bs : BreakerState) (now : Int)
    (f : Nat → Outcome) : BreakerState × Nat × Outcome :=
  let inner := Retrier.runO c.retrier f
  let afterBreaker :=
    match c.breaker with
    | none => (bs, inner)
    | some b => b.runO bs now inner
  let afterTimer := Timer.runO c.timer fires afterBreaker
  match afterTimer.2.2 with
  | .thrown v => (afterTimer.1, afterTimer.2.1, .thrown v)
  | .ret err =>
    if Fallback.useFallbackO c.fallback err then
      (afterTimer.1, afterTimer.2.1, Fallback.callO c.fallback)
    else afterTimer

/-- The breaker stage of the composition, with a nil breaker acting as a
transparent pass-through. -/
def breakerStage : Option Breaker → BreakerState → Int → Nat × Outcome →
    BreakerState × Nat × Outcome
  | none, bs, _, inner => (bs, inner)
  | some b, bs, now, inner => b.runO bs now inner

/-- The fallback application at the outermost layer, as the source
performs it: consult `UseFallback` on the composed error (whatever it is)
and replace it by the fallback operation's result when true. -/
def fallbackStage (fb : Option Fallback) (r : BreakerState × Nat × Outcome) :
    BreakerState × Nat × Outcome :=
  match r.2.2 with
  | .thrown _ => r
  | .ret err =>
    if Fallback.useFallbackO fb err then (r.1, r.2.1, Fallback.callO fb) else r

/-- The spec's composition read: Timer around Breaker around Retrier
around the user operation, with the fallback applied outermost. -/
def Caller.callComposed (c : Caller) (fires : Bool) (bs : BreakerState)
    (now : Int) (f : Nat → Outcome) : BreakerState × Nat × Outcome :=
  fallbackStage c.fallback
    (Timer.runO c.timer fires (breakerStage c.breaker bs now (Retrier.runO c.retrier f)))

/-- Modelled from the claim wording (C6): the fallback replaces the
composed result only when that result is a non-null error for which
`UseFallback` holds; a null composed result is returned unchanged. -/
def fallbackStageGuarded (fb : Option Fallback)
    (r : BreakerState × Nat × Outcome) : BreakerState × Nat × Outcome :=
  match r.2.2 with
  | .thrown _ => r
  | .ret err =>
    if err.isSome && Fallback.useFallbackO fb err then
      (r.1, r.2.1, Fallback.callO fb)
    else r

/-- Modelled from the claim wording (C6): the full composition with the
non-null-guarded fallback rule. -/
def Caller.callClaimGuarded (c : Caller) (fires : Bool) (bs : BreakerState)
    (now : Int) (f : Nat → Outcome) : BreakerState × Nat × Outcome :=
  fallbackStageGuarded c.fallback
    (Timer.runO c.timer fires (breakerStage c.breaker bs now (Retrier.runO c.retrier f)))

/-! ## Daemon (daemon.go) and telemetry client (api/client.go) -/

/-- A telemetry record (`errcatapi.Call`); the wall-clock `StartedAt` and
`Duration` stamps are side effects of the real clock and are not modelled. -/
structure CallRec where
  dependency : String
  name : String
  error : Option Err
deriving DecidableEq

/-- Mirror of `errcatapi.RecordCallsRequest`. -/
structure RecordCallsReq where
  environment : String
  service : String
  calls : List CallRec
deriving DecidableEq

/-- Value of `const bufferSize = 100` in daemon.go: the batch's initial capacity
and the flush threshold of the consumer loop. -/
def bufferSize : Nat := 100

/-- The daemon's configuration and registry.  `callChCap` records the
capacity argument of the `make(chan errcatapi.Call)` call in `NewD`;
`clientSet` models whether a non-nil client was injected. -/
structure Daemon where
  addrHost : String
  env : String
  service : String
  callChCap : Nat
  clientSet : Bool
  registry : List (String × Caller)

/-- The daemon construction options (`WithClient`, `WithEnvironment`,
`WithServerAddr`, `WithService`).  `withClient` models injecting a
non-nil client. -/
inductive OptionD where
  | withClient
  | withEnvironment (env : String)
  | withServerAddr (host : String)
  | withService (s : String)

/-- Application of one option to the daemon under construction. -/
def applyOptD (d : Daemon) : OptionD → Daemon
  | .withClient => { d with clientSet := true }
  | .withEnvironment e => { d with env := e }
  | .withServerAddr h => { d with addrHost := h }
  | .withService s => { d with service := s }

/-- Mirror of `errcat.NewD(opts...)`: the telemetry channel is created by
`make(chan errcatapi.Call)`, i.e. with capacity 0 (unbuffered), and the
registry is empty; then the options are applied in order. -/
def NewD (opts : List OptionD) : Daemon :=
  opts.foldl applyOptD
    { addrHost := "", env := "", service := "", callChCap := 0,
      clientSet := false, registry := [] }

/-- Mirror of `Daemon.enabled`: `d.client != nil || d.addr.Host != ""`. -/
def Daemon.enabled (d : Daemon) : Bool :=
  d.clientSet || d.addrHost ≠ ""

/-- The registry map lookup `d.registry[key]`: a Go map index miss yields
the zero value `Caller{}`. -/
def Daemon.lookup (d : Daemon) (key : String) : Caller :=
  match d.registry.find? (fun p => p.1 == key) with
  | some p => p.2
  | none => Caller.zeroC

/-- Mirror of `Daemon.Call` on a non-nil daemon: look the caller up, invoke
`caller.Call(cb)` under the deferred recover barrier (a panic becomes the
error `fmt.Errorf("%v", r)`), and build the telemetry record carrying the
caller's dependency and name and the final error.  Returns the new
breaker state, the number of `cb` invocations, the returned error and the
record that is enqueued when the daemon is enabled. -/
def Daemon.call (d : Daemon) (key : String) (fires : Bool)
    (bs : BreakerState) (now : Int) (f : Nat → Outcome) :
    BreakerState × Nat × Option Err × CallRec :=
  let caller := d.lookup key
  let r := caller.call fires bs now f
  let err : Option Err := Outcome.toErr r.2.2
  (r.1, r.2.1, err,
    { dependency := caller.dependency, name := caller.name, error := err })

/-- The three events the consumer loop `Daemon.consumeCalls` selects on. -/
inductive DEvent where
  | recv (c : CallRec)
  | tick
  | cancel

/-- One iteration of the consumer loop, given the current batch: returns
the batch after the iteration, the argument `send` was invoked with (or
`none` if `send` was not called), and whether the loop exited.  A received
record is appended; when the batch length reaches `bufferSize` it is sent
and reset.  A tick sends the current batch (possibly empty) and resets.
Cancellation sends the residual batch and exits. -/
def Daemon.consumeStep (batch : List CallRec) :
    DEvent → List CallRec × Option (List CallRec) × Bool
  | .recv c =>
    let calls := batch ++ [c]
    if calls.length = bufferSize then ([], some calls, false)
    else (calls, none, false)
  | .tick => ([], some batch, false)
  | .cancel => ([], some batch, true)

/-- Mirror of `Daemon.send`: an empty batch returns immediately with no
transmission; with no obtainable client nothing is transmitted; otherwise
a `RecordCallsRequest` carrying the environment, service and batch is
handed to the client. -/
def Daemon.send (d : Daemon) (hasClient : Bool) (calls : List CallRec) :
    Option RecordCallsReq :=
  if calls.length = 0 then none
  else if hasClient = false then none
  else some { environment := d.env, service := d.service, calls := calls }

/-- Mirror of `client.RecordCalls`: a nil client or an empty call list returns nil
without touching the wire; otherwise the request is transmitted. -/
def Client.recordCalls (cNil : Bool) (req : RecordCallsReq) :
    Option RecordCallsReq :=
  if cNil = true ∨ req.calls.length = 0 then none else some req

/-! ## Helper lemmas -/

/-- An observed `Closed` status forces the stored status to be `Closed`. -/
theorem State.status_of_obs_closed {s : State} {now : Int}
    (h : s.observedStatus now = .Closed) : s.status = .Closed := by
  unfold State.observedStatus at h
  split at h
  · exact absurd h (by simp)
  · exact h

/-- An observed `HalfOpen` status forces the stored status away from
`Closed`. -/
theorem State.status_of_obs_halfOpen {s : State} {now : Int}
    (h : s.observedStatus now = .HalfOpen) : s.status ≠ .Closed := by
  unfold State.observedStatus at h
  split at h
  next hc => rw [hc.1]; simp
  next => rw [h]; simp

/-- Reduction of `Breaker.Run` in observed `Closed`: the operation is admitted, the
panic-converted error is accounted and returned. -/
theorem Breaker.runO_closed (b : Breaker) {bs : BreakerState} {now : Int}
    (h : bs.state.observedStatus now = .Closed) (inner : Nat × Outcome) :
    b.runO bs now inner
      = (b.handleError bs bs.state (Outcome.toErr inner.2) now, inner.1,
         .ret (Outcome.toErr inner.2)) := by
  unfold Breaker.runO
  rw [h]

/-- Reduction of `Breaker.Run` in observed `Open`: immediate rejection. -/
theorem Breaker.runO_open (b : Breaker) {bs : BreakerState} {now : Int}
    (h : bs.state.observedStatus now = .Open) (inner : Nat × Outcome) :
    b.runO bs now inner = (bs, 0, .ret (some .breakerOpen)) := by
  unfold Breaker.runO
  rw [h]

/-- Reduction of `Breaker.Run` in observed `HalfOpen` below the admission cap: the
counter is incremented and the call admitted. -/
theorem Breaker.runO_halfOpen_admit (b : Breaker) {bs : BreakerState} {now : Int}
    (h : bs.state.observedStatus now = .HalfOpen)
    (hadm : bs.requests < b.maxRequests) (inner : Nat × Outcome) :
    b.runO bs now inner
      = (b.handleError { bs with requests := bs.requests + 1 } bs.state
           (Outcome.toErr inner.2) now, inner.1, .ret (Outcome.toErr inner.2)) := by
  unfold Breaker.runO
  rw [h]
  have hcm : b.canMakeHalfOpenRequest bs
      = (true, { bs with requests := bs.requests + 1 }) := by
    unfold Breaker.canMakeHalfOpenRequest
    rw [if_neg (by omega)]
  simp [hcm]

/-- Reduction of `Breaker.Run` in observed `HalfOpen` at the admission cap: rejection. -/
theorem Breaker.runO_halfOpen_reject (b : Breaker) {bs : BreakerState} {now : Int}
    (h : bs.state.observedStatus now = .HalfOpen)
    (hsat : b.maxRequests ≤ bs.requests) (inner : Nat × Outcome) :
    b.runO bs now inner = (bs, 0, .ret (some .breakerOpen)) := by
  unfold Breaker.runO
  rw [h]
  have hcm : b.canMakeHalfOpenRequest bs = (false, bs) := by
    unfold Breaker.canMakeHalfOpenRequest
    rw [if_pos hsat]
  simp [hcm]

/-- Outcome accounting when the stored and observed status is `Closed` and
the error counts as a failure: the failure streak is extended and, at
`maxFailures`, the breaker opens. -/
theorem Breaker.handleError_closed_failure (b : Breaker) (bs : BreakerState)
    (err : Option Err) (now : Int)
    (hobs : bs.state.observedStatus now = .Closed)
    (hF : (err.isSome && b.isFailure err) = true) :
    b.handleError bs bs.state err now
      = if b.maxFailures ≤ bs.state.failures + 1 then b.setState .Open now
        else { bs with state :=
               { bs.state with failures := bs.state.failures + 1, successes := 0 } } := by
  unfold Breaker.handleError
  rw [if_neg (by simp [hF]), hobs, if_pos hF]

/-- Outcome accounting when the stored and observed status is `Closed` and
the error does not count as a failure: the failure streak is reset, all
other fields untouched. -/
theorem Breaker.handleError_closed_success (b : Breaker) (bs : BreakerState)
    (err : Option Err) (now : Int)
    (hobs : bs.state.observedStatus now = .Closed)
    (hF : (err.isSome && b.isFailure err) = false) :
    b.handleError bs bs.state err now
      = { bs with state := { bs.state with failures := 0 } } := by
  have hst := State.status_of_obs_closed hobs
  unfold Breaker.handleError
  by_cases h0 : bs.state.failures = 0
  · rw [if_pos ⟨hst, hF, h0⟩]
    obtain ⟨req, st⟩ := bs
    obtain ⟨a, e, fl, sc⟩ := st
    simp only [BreakerState.mk.injEq, State.mk.injEq, true_and]
    simp_all
  · rw [if_neg (by intro hc; exact h0 hc.2.2), hobs, if_neg (by simp [hF])]

/-- Outcome accounting when the observed status is `HalfOpen` (after
admission) and the error counts as a failure: the breaker opens with a
fresh expiry. -/
theorem Breaker.handleError_halfOpen_failure (b : Breaker) (bs bsIn : BreakerState)
    (err : Option Err) (now : Int)
    (hobs : bsIn.state.observedStatus now = .HalfOpen)
    (hsnap : bs.state.status ≠ .Closed)
    (hF : (err.isSome && b.isFailure err) = true) :
    b.handleError bsIn bs.state err now = b.setState .Open now := by
  unfold Breaker.handleError
  rw [if_neg (by intro hc; exact hsnap hc.1)]
  simp only [hobs]
  rw [if_pos hF]

/-- Outcome accounting when the observed status is `HalfOpen` (after
admission) and the error is not a failure: the success streak is extended
and, at `maxRequests`, the breaker closes. -/
theorem Breaker.handleError_halfOpen_success (b : Breaker) (bs bsIn : BreakerState)
    (err : Option Err) (now : Int)
    (hobs : bsIn.state.observedStatus now = .HalfOpen)
    (hsnap : bs.state.status ≠ .Closed)
    (hF : (err.isSome && b.isFailure err) = false) :
    b.handleError bsIn bs.state err now
      = if bsIn.state.successes + 1 = b.maxRequests then b.setState .Closed now
        else { bsIn with state :=
               { bsIn.state with successes := bsIn.state.successes + 1, failures := 0 } } := by
  unfold Breaker.handleError
  rw [if_neg (by intro hc; exact hsnap hc.1)]
  simp only [hobs]
  rw [if_neg (by simp [hF])]

/-- Lemma: `handleError` either keeps the in-flight counter of the state it was
handed or resets it to zero. -/
theorem Breaker.handleError_requests (b : Breaker) (bs : BreakerState)
    (snap : State) (err : Option Err) (now : Int) :
    (b.handleError bs snap err now).requests = bs.requests ∨
    (b.handleError bs snap err now).requests = 0 := by
  unfold Breaker.handleError
  split
  · left; rfl
  · split
    · split
      · split
        · right; rfl
        · left; rfl
      · left; rfl
    · split
      · right; rfl
      · split
        · right; rfl
        · left; rfl
    · left; rfl

/-- Lemma: `handleError` never stores the `HalfOpen` status. -/
theorem Breaker.handleError_status (b : Breaker) (bs : BreakerState)
    (snap : State) (err : Option Err) (now : Int) :
    (b.handleError bs snap err now).state.status = bs.state.status ∨
    (b.handleError bs snap err now).state.status = .Open ∨
    (b.handleError bs snap err now).state.status = .Closed := by
  unfold Breaker.handleError
  split
  · left; rfl
  · split
    · split
      · split
        · right; left; rfl
        · left; rfl
      · left; rfl
    · split
      · right; left; rfl
      · split
        · right; right; rfl
        · left; rfl
    · left; rfl

/-- The retry loop makes at most as many invocations as its remaining
budget allows. -/
theorem Retrier.runAux_count_le (p : Option Err → Bool) (f : Nat → Outcome) :
    ∀ (rem i : Nat) (last : Option Err),
      (Retrier.runAux p f i rem last).1 ≤ i + rem := by
  intro rem
  induction rem with
  | zero => intro i last; simp [Retrier.runAux]
  | succ n ih =>
    intro i last
    simp only [Retrier.runAux]
    cases hf : f i with
    | thrown v =>
      simp only [hf]
      show i + 1 ≤ i + (n + 1)
      omega
    | ret err =>
      simp only [hf]
      split
      · show i + 1 ≤ i + (n + 1)
        omega
      · have := ih (i + 1) err
        omega

/-- If the `k`-th invocation (0-indexed) returns nil and every earlier
invocation returned a retriable error, the loop stops right after the
`k`-th invocation with a nil result. -/
theorem Retrier.runAux_success (p : Option Err → Bool) (f : Nat → Outcome) :
    ∀ (k i rem : Nat) (last : Option Err), k < rem →
      f (i + k) = .ret none →
      (∀ j, j < k → ∃ m, f (i + j) = Outcome.ret (some m) ∧ p (some m) = true) →
      Retrier.runAux p f i rem last = (i + k + 1, .ret none) := by
  intro k
  induction k with
  | zero =>
    intro i rem last hk hsucc _
    obtain ⟨r, rfl⟩ : ∃ r, rem = r + 1 := ⟨rem - 1, by omega⟩
    rw [Nat.add_zero] at hsucc
    simp [Retrier.runAux, hsucc]
  | succ n ih =>
    intro i rem last hk hsucc hbefore
    obtain ⟨r, rfl⟩ : ∃ r, rem = r + 1 := ⟨rem - 1, by omega⟩
    obtain ⟨m, hm, hpm⟩ := hbefore 0 (by omega)
    rw [Nat.add_zero] at hm
    simp only [Retrier.runAux, hm]
    rw [if_neg (by simp [hpm])]
    have heq := ih (i + 1) r m (by omega)
      (by rw [show i + 1 + n = i + (n + 1) by omega]; exact hsucc)
      (fun j hj => by
        obtain ⟨m2, hm2, hpm2⟩ := hbefore (j + 1) (by omega)
        exact ⟨m2, by rw [show i + 1 + j = i + (j + 1) by omega]; exact hm2, hpm2⟩)
    rw [heq]
    congr 1
    omega

/-- If the `k`-th invocation returns a non-retriable error and every
earlier invocation returned a retriable one, the loop stops right after
the `k`-th invocation with that error. -/
theorem Retrier.runAux_nonretriable (p : Option Err → Bool) (f : Nat → Outcome) :
    ∀ (k i rem : Nat) (last : Option Err) (m : Err), k < rem →
      f (i + k) = .ret (some m) → p (some m) = false →
      (∀ j, j < k → ∃ m2, f (i + j) = Outcome.ret (some m2) ∧ p (some m2) = true) →
      Retrier.runAux p f i rem last = (i + k + 1, .ret (some m)) := by
  intro k
  induction k with
  | zero =>
    intro i rem last m hk hstop hp _
    obtain ⟨r, rfl⟩ : ∃ r, rem = r + 1 := ⟨rem - 1, by omega⟩
    rw [Nat.add_zero] at hstop
    simp [Retrier.runAux, hstop, hp]
  | succ n ih =>
    intro i rem last m hk hstop hp hbefore
    obtain ⟨r, rfl⟩ : ∃ r, rem = r + 1 := ⟨rem - 1, by omega⟩
    obtain ⟨m2, hm2, hpm2⟩ := hbefore 0 (by omega)
    rw [Nat.add_zero] at hm2
    simp only [Retrier.runAux, hm2]
    rw [if_neg (by simp [hpm2])]
    have heq := ih (i + 1) r m2 m (by omega)
      (by rw [show i + 1 + n = i + (n + 1) by omega]; exact hstop) hp
      (fun j hj => by
        obtain ⟨m3, hm3, hpm3⟩ := hbefore (j + 1) (by omega)
        exact ⟨m3, by rw [show i + 1 + j = i + (j + 1) by omega]; exact hm3, hpm3⟩)
    rw [heq]
    congr 1
    omega

/-- If every invocation inside the budget returns a retriable error, the
loop exhausts the whole budget and returns the last error. -/
theorem Retrier.runAux_exhaust (p : Option Err → Bool) (f : Nat → Outcome) :
    ∀ (rem i : Nat) (last : Option Err), 1 ≤ rem →
      (∀ j, j < rem → ∃ m, f (i + j) = Outcome.ret (some m) ∧ p (some m) = true) →
      ∃ m, f (i + rem - 1) = Outcome.ret (some m) ∧
        Retrier.runAux p f i rem last = (i + rem, .ret (some m)) := by
  intro rem
  induction rem with
  | zero => intro i last h; omega
  | succ n ih =>
    intro i last _ hall
    obtain ⟨m, hm, hpm⟩ := hall 0 (by omega)
    rw [Nat.add_zero] at hm
    cases n with
    | zero =>
      refine ⟨m, by simpa using hm, ?_⟩
      simp only [Retrier.runAux, hm]
      rw [if_neg (by simp [hpm])]
    | succ n2 =>
      obtain ⟨m2, hm2, heq⟩ := ih (i + 1) m (by omega)
        (fun j hj => by
          obtain ⟨m3, hm3, hpm3⟩ := hall (j + 1) (by omega)
          exact ⟨m3, by rw [show i + 1 + j = i + (j + 1) by omega]; exact hm3, hpm3⟩)
      refine ⟨m2, by rw [show i + (n2 + 1 + 1) - 1 = i + 1 + (n2 + 1) - 1 by omega]; exact hm2, ?_⟩
      simp only [Retrier.runAux, hm]
      rw [if_neg (by simp [hpm])]
      simp only [Retrier.runAux] at heq
      rw [heq]
      congr 1
      omega

/-- The zero-value caller is a pure pass-through: `cb` runs exactly once
and its outcome is the result. -/
theorem Caller.zeroC_call (fires : Bool) (bs : BreakerState) (now : Int)
    (f : Nat → Outcome) :
    Caller.zeroC.call fires bs now f = (bs, 1, f 0) := by
  unfold Caller.call Caller.zeroC
  cases h : f 0 with
  | thrown v => simp [Retrier.runO, Timer.runO, h]
  | ret e => simp [Retrier.runO, Timer.runO, Fallback.useFallbackO, h]

/-- Options applied by `NewD` never touch the channel capacity chosen by
the `make` call. -/
theorem foldl_applyOptD_callChCap :
    ∀ (opts : List OptionD) (d : Daemon),
      (opts.foldl applyOptD d).callChCap = d.callChCap := by
  intro opts
  induction opts with
  | nil => intro d; rfl
  | cons o rest ih =>
    intro d
    rw [List.foldl_cons, ih]
    cases o <;> rfl

/-! ## Claims -/

/-- C7: for a non-nil retrier, `Run` invokes `cb` at most `max_attempts`
times; it returns nil right after the first nil result, so a success on
the (0-indexed) attempt `k` makes exactly `k + 1` invocations; the first
non-retriable error ends the loop immediately and is returned; and when
every attempt in the budget yields a retriable error, `cb` runs exactly
`max_attempts` times and the last error is returned. -/
theorem retrier_run_budget (r : Retrier) (f : Nat → Outcome) :
    ((Retrier.runO (some r) f).1 ≤ r.maxAttempts) ∧
    (∀ k, k < r.maxAttempts → f k = .ret none →
      (∀ j, j < k → ∃ m, f j = Outcome.ret (some m) ∧ r.isRetriable (some m) = true) →
      Retrier.runO (some r) f = (k + 1, .ret none)) ∧
    (∀ k (m : Err), k < r.maxAttempts → f k = .ret (some m) →
      r.isRetriable (some m) = false →
      (∀ j, j < k → ∃ m2, f j = Outcome.ret (some m2) ∧ r.isRetriable (some m2) = true) →
      Retrier.runO (some r) f = (k + 1, .ret (some m))) ∧
    (1 ≤ r.maxAttempts →
      (∀ j, j < r.maxAttempts →
        ∃ m, f j = Outcome.ret (some m) ∧ r.isRetriable (some m) = true) →
      ∃ m, f (r.maxAttempts - 1) = Outcome.ret (some m) ∧
        Retrier.runO (some r) f = (r.maxAttempts, .ret (some m))) := by
  refine ⟨?_, ?_, ?_, ?_⟩
  · simpa using Retrier.runAux_count_le r.isRetriable f r.maxAttempts 0 none
  · intro k hk hs hb
    have := Retrier.runAux_success r.isRetriable f k 0 r.maxAttempts none hk
      (by simpa using hs) (fun j hj => by simpa using hb j hj)
    simpa [Retrier.runO] using this
  · intro k m hk hs hp hb
    have := Retrier.runAux_nonretriable r.isRetriable f k 0 r.maxAttempts none m hk
      (by simpa using hs) hp (fun j hj => by simpa using hb j hj)
    simpa [Retrier.runO] using this
  · intro h1 hall
    have := Retrier.runAux_exhaust r.isRetriable f r.maxAttempts 0 none h1
      (fun j hj => by simpa using hall j hj)
    simpa [Retrier.runO] using this

/-- C7 witness: with `max_attempts = 3` and an operation failing retriably
twice then succeeding, `Run` makes exactly 3 invocations and returns nil. -/
theorem retrier_run_budget_witness :
    Retrier.runO (some { isRetriable := fun e => e.isSome, maxAttempts := 3 })
        (fun i => if i < 2 then Outcome.ret (some (.user "oops")) else .ret none)
      = (3, .ret none) := by
  have h := (retrier_run_budget { isRetriable := fun e => e.isSome, maxAttempts := 3 }
      (fun i => if i < 2 then Outcome.ret (some (.user "oops")) else .ret none)).2.1 2
    (by decide) (by simp)
    (fun j hj => ⟨.user "oops", by interval_cases j <;> simp, by simp⟩)
  simpa using h

/-- C4: a call arriving while the observed status is `Open`, or while it
is `HalfOpen` with the admission counter saturated, returns the
`BREAKER_OPEN` sentinel, never starts the operation (invocation count 0)
and leaves every stored breaker field untouched. -/
theorem breaker_open_rejection (b : Breaker) (bs : BreakerState) (now : Int)
    (inner : Nat × Outcome) :
    (bs.state.observedStatus now = .Open →
      b.runO bs now inner = (bs, 0, .ret (some .breakerOpen))) ∧
    (bs.state.observedStatus now = .HalfOpen → b.maxRequests ≤ bs.requests →
      b.runO bs now inner = (bs, 0, .ret (some .breakerOpen))) := by
  exact ⟨fun h => Breaker.runO_open b h inner,
         fun h hs => Breaker.runO_halfOpen_reject b h hs inner⟩

/-- C4 witness: a default breaker stored `Open` with an unexpired window
rejects, and a saturated half-open breaker rejects, both without state
changes. -/
theorem breaker_open_rejection_witness :
    Breaker.defaultB.runO
        { requests := 0, state := { status := .Open, expiresAt := 5, failures := 0, successes := 0 } }
        0 (1, .ret none)
      = ({ requests := 0, state := { status := .Open, expiresAt := 5, failures := 0, successes := 0 } },
         0, .ret (some .breakerOpen)) ∧
    Breaker.defaultB.runO
        { requests := 1, state := { status := .Open, expiresAt := 0, failures := 0, successes := 0 } }
        0 (1, .ret none)
      = ({ requests := 1, state := { status := .Open, expiresAt := 0, failures := 0, successes := 0 } },
         0, .ret (some .breakerOpen)) :=
  ⟨(breaker_open_rejection Breaker.defaultB _ 0 _).1 (by decide),
   (breaker_open_rejection Breaker.defaultB _ 0 _).2 (by decide) (by decide)⟩

/-- C8 counterexample: `NewD` creates the telemetry channel with
`make(chan errcatapi.Call)`, whose capacity is 0, not the 100 the claim
asserts. -/
theorem daemon_channel_capacity_counterexample :
    (NewD []).callChCap = 0 ∧ ¬ (NewD []).callChCap = 100 := by
  exact ⟨rfl, by decide⟩

/-- C8 (amended): the telemetry channel is created unbuffered (capacity
0) regardless of the options, so an enqueue blocks until the worker
receives; the constant `bufferSize = 100` is the batch flush threshold,
not a channel capacity. -/
theorem daemon_channel_unbuffered (opts : List OptionD) :
    (NewD opts).callChCap = 0 ∧ bufferSize = 100 :=
  ⟨foldl_applyOptD_callChCap opts _, rfl⟩

/-- C9: in the consumer loop, a dequeued record is appended to the batch;
when the batch length reaches the flush threshold (100) it is sent and the
batch reset, otherwise nothing is sent; cancellation sends the residual
batch and exits the loop; and an empty batch is never transmitted, both
by the daemon's `send` and by the client's `RecordCalls`. -/
theorem daemon_batching (batch : List CallRec) (c : CallRec) (d : Daemon)
    (hasClient cNil : Bool) (req : RecordCallsReq) :
    (batch.length + 1 = bufferSize →
      Daemon.consumeStep batch (.recv c) = ([], some (batch ++ [c]), false)) ∧
    (batch.length + 1 ≠ bufferSize →
      Daemon.consumeStep batch (.recv c) = (batch ++ [c], none, false)) ∧
    (Daemon.consumeStep batch .cancel = ([], some batch, true)) ∧
    (d.send hasClient [] = none) ∧
    (req.calls = [] → Client.recordCalls cNil req = none) := by
  refine ⟨?_, ?_, rfl, ?_, ?_⟩
  · intro h
    simp [Daemon.consumeStep, h]
  · intro h
    simp only [Daemon.consumeStep]
    rw [if_neg (by simpa using h)]
  · simp [Daemon.send]
  · intro h
    simp [Client.recordCalls, h]

/-- C9 witness: a batch of 99 records flushes on the 100th, and an empty
request is not transmitted by the client. -/
theorem daemon_batching_witness :
    Daemon.consumeStep (List.replicate 99 { dependency := "", name := "", error := none })
        (.recv { dependency := "", name := "", error := none })
      = ([], some (List.replicate 99 { dependency := "", name := "", error := none }
          ++ [{ dependency := "", name := "", error := none }]), false) ∧
    Client.recordCalls false { environment := "e", service := "s", calls := [] } = none := by
  refine ⟨?_, ?_⟩
  · exact (daemon_batching (List.replicate 99 { dependency := "", name := "", error := none })
      { dependency := "", name := "", error := none } (NewD []) true false
      { environment := "e", service := "s", calls := [] }).1 (by simp [bufferSize])
  · exact (daemon_batching [] { dependency := "", name := "", error := none } (NewD []) true false
      { environment := "e", service := "s", calls := [] }).2.2.2.2 rfl

/-- C10: a `Call` on a non-nil daemon with a key that was never
registered does not fail: the registry lookup yields the zero-value
`Caller` (all primitives absent), the operation runs exactly once as a
pass-through, its result (or panic-derived error) is returned, and the
telemetry record carries empty strings for dependency and name. -/
theorem daemon_call_unregistered_key (d : Daemon) (key : String) (fires : Bool)
    (bs : BreakerState) (now : Int) (f : Nat → Outcome)
    (hkey : ∀ p ∈ d.registry, p.1 ≠ key) :
    d.call key fires bs now f
      = (bs, 1, Outcome.toErr (f 0),
         { dependency := "", name := "", error := Outcome.toErr (f 0) }) := by
  have hfind : d.registry.find? (fun p => p.1 == key) = none := by
    rw [List.find?_eq_none]
    intro p hp
    simpa using hkey p hp
  have hlook : d.lookup key = Caller.zeroC := by
    simp [Daemon.lookup, hfind]
  unfold Daemon.call
  rw [hlook]
  simp only [Caller.zeroC_call]
  rfl

/-- The error used throughout the concrete breaker scenarios. -/
def oops : Option Err := some (.user "oops")

/-- C1: for every admitted call observed in `Closed`, a failure-classified
error extends the failure streak (resetting successes) and the underlying
error — never `BREAKER_OPEN` — is returned; reaching `max_failures` opens
the breaker with `expires_at = now + timeout`; an error not classified as
a failure resets the streak to zero.  Concretely, with default options 4
consecutive failures leave the breaker observed `Closed` with failure
count 4 and the 5th opens it while returning the underlying error. -/
theorem breaker_closed_accounting (b : Breaker) (bs : BreakerState) (now : Int)
    (n : Nat) (err : Option Err)
    (hobs : bs.state.observedStatus now = .Closed) :
    ((b.runO bs now (n, .ret err)).2.2 = .ret err) ∧
    ((err.isSome && b.isFailure err) = true → b.maxFailures ≤ bs.state.failures + 1 →
      (b.runO bs now (n, .ret err)).1
        = { requests := 0,
            state := { status := .Open, expiresAt := now + b.timeout,
                       failures := 0, successes := 0 } }) ∧
    ((err.isSome && b.isFailure err) = true → bs.state.failures + 1 < b.maxFailures →
      (b.runO bs now (n, .ret err)).1
        = { bs with state :=
            { bs.state with failures := bs.state.failures + 1, successes := 0 } }) ∧
    ((err.isSome && b.isFailure err) = false →
      (b.runO bs now (n, .ret err)).1
        = { bs with state := { bs.state with failures := 0 } }) ∧
    ((Breaker.defaultB.runSeq 0 Breaker.initialState
        [oops, oops, oops, oops]).1.state.observedStatus 0 = .Closed) ∧
    ((Breaker.defaultB.runSeq 0 Breaker.initialState
        [oops, oops, oops, oops]).1.state.failures = 4) ∧
    (Breaker.defaultB.runSeq 0 Breaker.initialState [oops, oops, oops, oops, oops]
      = ({ requests := 0,
           state := { status := .Open, expiresAt := 60000000000,
                      failures := 0, successes := 0 } }, oops)) := by
  rw [Breaker.runO_closed b hobs (n, .ret err)]
  simp only [show ((n, Outcome.ret err) : Nat × Outcome).2 = Outcome.ret err from rfl,
             Outcome.toErr]
  refine ⟨trivial, ?_, ?_, ?_, by decide, by decide, by decide⟩
  · intro hF htrip
    rw [Breaker.handleError_closed_failure b bs err now hobs hF, if_pos htrip]
    rfl
  · intro hF hstay
    rw [Breaker.handleError_closed_failure b bs err now hobs hF,
        if_neg (by omega)]
  · intro hF
    exact Breaker.handleError_closed_success b bs err now hobs hF

/-- C1 witness: a first failure against a default breaker is returned
unchanged and leaves the breaker `Closed` with one recorded failure. -/
theorem breaker_closed_accounting_witness :
    (Breaker.defaultB.runO Breaker.initialState 0 (1, .ret oops)).2.2 = .ret oops ∧
    (Breaker.defaultB.runO Breaker.initialState 0 (1, .ret oops)).1
      = { requests := 0,
          state := { status := .Closed, expiresAt := 0, failures := 1, successes := 0 } } := by
  have h := breaker_closed_accounting Breaker.defaultB Breaker.initialState 0 1 oops (by decide)
  refine ⟨h.1, ?_⟩
  rw [h.2.2.1 (by decide) (by decide)]
  decide

/-- C3: the observed status is a pure function of stored state and clock
— `HalfOpen` exactly when the stored status is `Open` with
`expires_at ≤ now` (the stored status is never `HalfOpen`: it starts
`Closed` and `Run` preserves that), and the stored status otherwise.  For
an admitted call completing in observed `HalfOpen`: a failure opens the
breaker with `expires_at = now + timeout` and both counters reset; a
non-failure increments consecutive successes, closing the breaker when
they reach `max_half_open_requests`. -/
theorem breaker_observed_status_halfopen (b : Breaker) (s : State)
    (bs : BreakerState) (now : Int) (n : Nat) (err : Option Err)
    (inner : Nat × Outcome) :
    (s.status ≠ .HalfOpen →
      (s.observedStatus now = .HalfOpen ↔ (s.status = .Open ∧ s.expiresAt ≤ now))) ∧
    (¬(s.status = .Open ∧ s.expiresAt ≤ now) → s.observedStatus now = s.status) ∧
    (Breaker.initialState.state.status = .Closed) ∧
    (bs.state.status ≠ .HalfOpen → (b.runO bs now inner).1.state.status ≠ .HalfOpen) ∧
    (bs.state.observedStatus now = .HalfOpen → bs.requests < b.maxRequests →
      (err.isSome && b.isFailure err) = true →
      (b.runO bs now (n, .ret err)).1
        = { requests := 0,
            state := { status := .Open, expiresAt := now + b.timeout,
                       failures := 0, successes := 0 } }) ∧
    (bs.state.observedStatus now = .HalfOpen → bs.requests < b.maxRequests →
      (err.isSome && b.isFailure err) = false →
      bs.state.successes + 1 = b.maxRequests →
      (b.runO bs now (n, .ret err)).1
        = { requests := 0,
            state := { status := .Closed, expiresAt := 0,
                       failures := 0, successes := 0 } }) ∧
    (bs.state.observedStatus now = .HalfOpen → bs.requests < b.maxRequests →
      (err.isSome && b.isFailure err) = false →
      bs.state.successes + 1 ≠ b.maxRequests →
      (b.runO bs now (n, .ret err)).1
        = { requests := bs.requests + 1,
            state := { bs.state with successes := bs.state.successes + 1, failures := 0 } }) := by
  refine ⟨?_, ?_, rfl, ?_, ?_, ?_, ?_⟩
  · intro hs
    constructor
    · intro h
      by_cases hc : s.status = .Open ∧ s.expiresAt ≤ now
      · exact hc
      · unfold State.observedStatus at h
        rw [if_neg hc] at h
        exact absurd h hs
    · intro hc
      unfold State.observedStatus
      rw [if_pos hc]
  · intro hc
    unfold State.observedStatus
    rw [if_neg hc]
  · intro hne
    rcases hstat : bs.state.observedStatus now with _ | _ | _
    · rw [Breaker.runO_closed b hstat inner]
      rcases Breaker.handleError_status b bs bs.state (Outcome.toErr inner.2) now with h | h | h <;>
        simp [h, hne]
    · by_cases hadm : bs.requests < b.maxRequests
      · rw [Breaker.runO_halfOpen_admit b hstat hadm inner]
        rcases Breaker.handleError_status b { bs with requests := bs.requests + 1 } bs.state
            (Outcome.toErr inner.2) now with h | h | h <;>
          simp [h, hne]
      · rw [Breaker.runO_halfOpen_reject b hstat (by omega) inner]
        exact hne
    · rw [Breaker.runO_open b hstat inner]
      exact hne
  · intro hobs hadm hF
    rw [Breaker.runO_halfOpen_admit b hobs hadm (n, .ret err)]
    simp only [show ((n, Outcome.ret err) : Nat × Outcome).2 = Outcome.ret err from rfl,
               Outcome.toErr]
    rw [Breaker.handleError_halfOpen_failure b bs { bs with requests := bs.requests + 1 }
        err now hobs (State.status_of_obs_halfOpen hobs) hF]
    rfl
  · intro hobs hadm hF hfin
    rw [Breaker.runO_halfOpen_admit b hobs hadm (n, .ret err)]
    simp only [show ((n, Outcome.ret err) : Nat × Outcome).2 = Outcome.ret err from rfl,
               Outcome.toErr]
    rw [Breaker.handleError_halfOpen_success b bs { bs with requests := bs.requests + 1 }
        err now hobs (State.status_of_obs_halfOpen hobs) hF]
    rw [if_pos hfin]
    rfl
  · intro hobs hadm hF hfin
    rw [Breaker.runO_halfOpen_admit b hobs hadm (n, .ret err)]
    simp only [show ((n, Outcome.ret err) : Nat × Outcome).2 = Outcome.ret err from rfl,
               Outcome.toErr]
    rw [Breaker.handleError_halfOpen_success b bs { bs with requests := bs.requests + 1 }
        err now hobs (State.status_of_obs_halfOpen hobs) hF]
    rw [if_neg hfin]

/-- C3 witness: a stored-`Open` state whose expiry has passed is observed
`HalfOpen`, and a failing admitted half-open call re-opens a default
breaker with a fresh 60 s expiry. -/
theorem breaker_observed_status_halfopen_witness :
    ((⟨.Open, 0, 0, 0⟩ : State).observedStatus 0 = .HalfOpen ↔
      ((⟨.Open, 0, 0, 0⟩ : State).status = .Open ∧ (⟨.Open, 0, 0, 0⟩ : State).expiresAt ≤ 0)) ∧
    (Breaker.defaultB.runO ⟨0, ⟨.Open, 0, 0, 0⟩⟩ 0 (1, .ret oops)).1
      = { requests := 0,
          state := { status := .Open, expiresAt := 60000000000,
                     failures := 0, successes := 0 } } := by
  have h := breaker_observed_status_halfopen Breaker.defaultB ⟨.Open, 0, 0, 0⟩
    ⟨0, ⟨.Open, 0, 0, 0⟩⟩ 0 1 oops (1, .ret oops)
  refine ⟨h.1 (by decide), ?_⟩
  rw [h.2.2.2.2.1 (by decide) (by decide) (by decide)]
  decide

/-- C5: a call observed in `HalfOpen` is admitted exactly when the
in-flight counter is strictly below `max_half_open_requests`, and the
admission step itself increments the counter; at the cap the call is
rejected with `BREAKER_OPEN` and nothing changes; and the counter never
exceeds the cap across a call. -/
theorem breaker_halfopen_admission_cap (b : Breaker) (bs : BreakerState)
    (now : Int) (inner : Nat × Outcome) :
    (bs.requests < b.maxRequests →
      b.canMakeHalfOpenRequest bs = (true, { bs with requests := bs.requests + 1 })) ∧
    (b.maxRequests ≤ bs.requests → b.canMakeHalfOpenRequest bs = (false, bs)) ∧
    (bs.state.observedStatus now = .HalfOpen → bs.requests < b.maxRequests →
      b.runO bs now inner
        = (b.handleError { bs with requests := bs.requests + 1 } bs.state
             (Outcome.toErr inner.2) now, inner.1, .ret (Outcome.toErr inner.2))) ∧
    (bs.state.observedStatus now = .HalfOpen → b.maxRequests ≤ bs.requests →
      b.runO bs now inner = (bs, 0, .ret (some .breakerOpen))) ∧
    (bs.requests ≤ b.maxRequests → (b.runO bs now inner).1.requests ≤ b.maxRequests) := by
  refine ⟨?_, ?_, ?_, ?_, ?_⟩
  · intro h
    unfold Breaker.canMakeHalfOpenRequest
    rw [if_neg (by omega)]
  · intro h
    unfold Breaker.canMakeHalfOpenRequest
    rw [if_pos h]
  · intro hobs hadm
    exact Breaker.runO_halfOpen_admit b hobs hadm inner
  · intro hobs hsat
    exact Breaker.runO_halfOpen_reject b hobs hsat inner
  · intro hle
    rcases hstat : bs.state.observedStatus now with _ | _ | _
    · rw [Breaker.runO_closed b hstat inner]
      rcases Breaker.handleError_requests b bs bs.state (Outcome.toErr inner.2) now with h | h <;>
        simp only [h] <;> omega
    · by_cases hadm : bs.requests < b.maxRequests
      · rw [Breaker.runO_halfOpen_admit b hstat hadm inner]
        rcases Breaker.handleError_requests b { bs with requests := bs.requests + 1 } bs.state
            (Outcome.toErr inner.2) now with h | h <;> simp only [h] <;> omega
      · rw [Breaker.runO_halfOpen_reject b hstat (by omega) inner]
        simpa using hle
    · rw [Breaker.runO_open b hstat inner]
      simpa using hle

/-- C5 witness: with the default cap of 1, the first half-open admission
increments the counter and a saturated breaker rejects with the sentinel. -/
theorem breaker_halfopen_admission_cap_witness :
    Breaker.defaultB.canMakeHalfOpenRequest ⟨0, ⟨.Open, 0, 0, 0⟩⟩
      = (true, ⟨1, ⟨.Open, 0, 0, 0⟩⟩) ∧
    Breaker.defaultB.runO ⟨1, ⟨.Open, 0, 0, 0⟩⟩ 0 (1, .ret none)
      = (⟨1, ⟨.Open, 0, 0, 0⟩⟩, 0, .ret (some .breakerOpen)) ∧
    (Breaker.defaultB.runO ⟨0, ⟨.Open, 0, 0, 0⟩⟩ 0 (1, .ret none)).1.requests ≤ 1 := by
  have h := breaker_halfopen_admission_cap Breaker.defaultB ⟨0, ⟨.Open, 0, 0, 0⟩⟩ 0 (1, .ret none)
  have h2 := breaker_halfopen_admission_cap Breaker.defaultB ⟨1, ⟨.Open, 0, 0, 0⟩⟩ 0 (1, .ret none)
  exact ⟨h.1 (by decide), h2.2.2.2.1 (by decide) (by decide), h.2.2.2.2 (by decide)⟩

/-- C2 counterexample: a non-nil retrier run with a panicking operation
propagates the panic rather than returning an error (the `Retrier.Run`
body installs no recovery barrier), and so does the synchronous path of
the timer (`t == nil` runs `cb()` directly) and `Fallback.Call`; the
claim asserts every primitive returns a non-null error with the panic
value as message. -/
theorem panic_propagation_counterexample :
    Retrier.runO (some { isRetriable := fun e => e.isSome, maxAttempts := 1 })
        (fun _ => .thrown "boom") = (1, .thrown "boom") ∧
    Timer.runO none true (Breaker.initialState, 1, .thrown "boom")
      = (Breaker.initialState, 1, .thrown "boom") ∧
    Timer.runO (some { duration := 0 }) true (Breaker.initialState, 1, .thrown "boom")
      = (Breaker.initialState, 1, .thrown "boom") ∧
    Fallback.callO (some { useFallback := fun e => e.isSome, call := .thrown "boom" })
      = .thrown "boom" := by
  exact ⟨rfl, rfl, rfl, rfl⟩

/-- C2 (amended): only the breaker's admitted invocation path, the
timer's concurrent path and the daemon's `Call` install a recovery
barrier converting a panic with value `v` into a non-null error whose
message equals `v`; the retrier, the fallback and the timer's synchronous
path (absent timer or non-positive duration) propagate the panic. -/
theorem panic_barrier_coverage (b : Breaker) (bs : BreakerState) (now : Int)
    (n : Nat) (v : String) (d : Int) (fires : Bool) (r : Retrier)
    (p : Option Err → Bool) (dm : Daemon) (key : String) :
    (bs.state.observedStatus now = .Closed →
      (b.runO bs now (n, .thrown v)).2.2 = .ret (some (.user v))) ∧
    ((Err.user v).message = v) ∧
    (0 < d → Timer.runO (some { duration := d }) false (bs, n, .thrown v)
        = (bs, n, .ret (some (.user v)))) ∧
    ((∀ q ∈ dm.registry, q.1 ≠ key) →
      (dm.call key fires bs now (fun _ => .thrown v)).2.2.1 = some (.user v)) ∧
    (1 ≤ r.maxAttempts →
      Retrier.runO (some r) (fun _ => .thrown v) = (1, .thrown v)) ∧
    (Timer.runO none fires (bs, n, .thrown v) = (bs, n, .thrown v)) ∧
    (d ≤ 0 → Timer.runO (some { duration := d }) fires (bs, n, .thrown v)
        = (bs, n, .thrown v)) ∧
    (Fallback.callO (some { useFallback := p, call := .thrown v }) = .thrown v) := by
  refine ⟨?_, rfl, ?_, ?_, ?_, rfl, ?_, rfl⟩
  · intro hobs
    rw [Breaker.runO_closed b hobs (n, .thrown v)]
    rfl
  · intro hd
    simp only [Timer.runO]
    rw [if_neg (by omega)]
    rfl
  · intro hkey
    have hfind : dm.registry.find? (fun q => q.1 == key) = none := by
      rw [List.find?_eq_none]
      intro q hq
      simpa using hkey q hq
    have hlook : dm.lookup key = Caller.zeroC := by
      simp [Daemon.lookup, hfind]
    unfold Daemon.call
    rw [hlook]
    simp only [Caller.zeroC_call]
    rfl
  · intro h1
    obtain ⟨k, hk⟩ : ∃ k, r.maxAttempts = k + 1 := ⟨r.maxAttempts - 1, by omega⟩
    simp [Retrier.runO, hk, Retrier.runAux]
  · intro hd
    simp only [Timer.runO]
    rw [if_pos hd]

/-- C2 witness: the breaker, the active timer path and the daemon each
convert a panic with value "boom" into an error with that message. -/
theorem panic_barrier_coverage_witness :
    (Breaker.defaultB.runO Breaker.initialState 0 (1, .thrown "boom")).2.2
      = .ret (some (.user "boom")) ∧
    Timer.runO (some { duration := 50 }) false (Breaker.initialState, 1, .thrown "boom")
      = (Breaker.initialState, 1, .ret (some (.user "boom"))) ∧
    ((NewD []).call "k" false Breaker.initialState 0 (fun _ => .thrown "boom")).2.2.1
      = some (.user "boom") ∧
    Retrier.runO (some Retrier.defaultR) (fun _ => .thrown "boom") = (1, .thrown "boom") := by
  have h := panic_barrier_coverage Breaker.defaultB Breaker.initialState 0 1 "boom" 50
    false Retrier.defaultR (fun e => e.isSome) (NewD []) "k"
  exact ⟨h.1 (by decide), h.2.2.1 (by decide),
         h.2.2.2.1 (by intro q hq; simp [NewD] at hq),
         h.2.2.2.2.1 (by decide)⟩

/-- C6 counterexample: a caller whose fallback predicate accepts a nil
error replaces a nil composed result with the fallback's result — the
source consults `UseFallback(err)` with no non-null guard — whereas the
claim's rule returns the nil result unchanged. -/
theorem caller_fallback_guard_counterexample :
    Caller.call ((Caller.new "dep" "op").withFallback
        (some { useFallback := fun _ => true, call := .ret (some (.user "fb")) }))
        false Breaker.initialState 0 (fun _ => .ret none)
      = (Breaker.initialState, 1, .ret (some (.user "fb"))) ∧
    Caller.callClaimGuarded ((Caller.new "dep" "op").withFallback
        (some { useFallback := fun _ => true, call := .ret (some (.user "fb")) }))
        false Breaker.initialState 0 (fun _ => .ret none)
      = (Breaker.initialState, 1, .ret none) ∧
    Caller.call ((Caller.new "dep" "op").withFallback
        (some { useFallback := fun _ => true, call := .ret (some (.user "fb")) }))
        false Breaker.initialState 0 (fun _ => .ret none)
      ≠ Caller.callClaimGuarded ((Caller.new "dep" "op").withFallback
        (some { useFallback := fun _ => true, call := .ret (some (.user "fb")) }))
        false Breaker.initialState 0 (fun _ => .ret none) := by
  refine ⟨rfl, rfl, by decide⟩

/-- C6 (amended): `Caller.Call` equals the fixed nesting
Timer ▸ Breaker ▸ Retrier ▸ cb with the fallback applied outermost, where
the fallback replaces the composed result whenever `UseFallback` accepts
it (nil or not); every absent primitive is a transparent pass-through, so
a caller with only a retrier behaves exactly like that bare retrier and a
caller with no primitives runs `cb` exactly once. -/
theorem caller_composition (c : Caller) (fires : Bool) (bs : BreakerState)
    (now : Int) (f : Nat → Outcome) (dep nm : String) (r : Retrier) :
    (c.call fires bs now f = c.callComposed fires bs now f) ∧
    (((Caller.new dep nm).withRetrier (some r)).call fires bs now f
        = (bs, Retrier.runO (some r) f)) ∧
    ((Caller.new dep nm).call fires bs now f = (bs, 1, f 0)) := by
  refine ⟨?_, ?_, ?_⟩
  · simp only [Caller.call, Caller.callComposed]
    have hb : (match c.breaker with
        | none => (bs, Retrier.runO c.retrier f)
        | some b => b.runO bs now (Retrier.runO c.retrier f))
        = breakerStage c.breaker bs now (Retrier.runO c.retrier f) := by
      cases c.breaker <;> rfl
    rw [hb]
    generalize Timer.runO c.timer fires (breakerStage c.breaker bs now (Retrier.runO c.retrier f)) = T
    obtain ⟨bs2, n2, o2⟩ := T
    cases o2 <;> simp [fallbackStage]
  · unfold Caller.call Caller.new Caller.withRetrier
    rcases hr : Retrier.runO (some r) f with ⟨n2, o2⟩
    cases o2 <;> simp [Timer.runO, Fallback.useFallbackO, hr]
  · unfold Caller.call Caller.new
    cases h : f 0 with
    | thrown v => simp [Retrier.runO, Timer.runO, h]
    | ret e => simp [Retrier.runO, Timer.runO, Fallback.useFallbackO, h]

/-- C10 witness: a fresh daemon with nothing registered passes the
operation through under the key "k". -/
theorem daemon_call_unregistered_key_witness :
    (NewD []).call "k" false Breaker.initialState 0 (fun _ => .ret none)
      = (Breaker.initialState, 1, none,
         { dependency := "", name := "", error := none }) := by
  have h := daemon_call_unregistered_key (NewD []) "k" false Breaker.initialState 0
    (fun _ => .ret none) (by intro p hp; simp [NewD] at hp)
  simpa using h

end Errcat
